import Mathlib

/-!
Verification of the GIP Semantic Bridge core pipeline (src/src/main.ts).

Shallow embedding: the data model, the response cache (a JS `Map`), the
Ollama client's response construction, the federation message handler,
`processRequest`, `getResponse`, `getStats`, and the relay reconnect loop
are translated into executable Lean definitions; machine integers are
modelled as `Nat`, JS numbers carrying sampling parameters as `ℚ`, and
possibly-absent JSON fields as `Option`.  JS falsiness of `""` and `0`
in `a || b` expressions is modelled explicitly by `strOr` / `numOr` /
`natOr`.
-/

namespace GipBridge

/-- Token accounting of a response (main.ts lines 52-56). -/
structure Tokens where
  prompt : Nat
  completion : Nat
  total : Nat
deriving DecidableEq

/-- `SemanticRequest` (main.ts lines 37-45).  `prompt` is typed `string`
in TS but at runtime may be `undefined` when the inbound JSON lacks it,
so it is modelled as `Option String`; sampling parameters are optional. -/
structure SemanticRequest where
  id : String
  prompt : Option String
  model : Option String
  temperature : Option ℚ
  topK : Option Nat
  topP : Option ℚ
  timestamp : Nat
deriving DecidableEq

/-- `SemanticResponse` (main.ts lines 47-59). -/
structure SemanticResponse where
  id : String
  prompt : Option String
  model : String
  response : String
  tokens : Tokens
  processingTime : Nat
  timestamp : Nat
deriving DecidableEq

/-- JS `a || b` on an optional string: `undefined` and the falsy value
`""` both select the default. -/
def strOr (o : Option String) (d : String) : String :=
  match o with
  | none => d
  | some s => if s = "" then d else s

/-- JS `a || b` on an optional number (modelled as `ℚ`): `undefined` and
the falsy value `0` both select the default. -/
def numOr (o : Option ℚ) (d : ℚ) : ℚ :=
  match o with
  | none => d
  | some x => if x = 0 then d else x

/-- JS `a || b` on an optional integer count: `undefined` and the falsy
value `0` both select the default. -/
def natOr (o : Option Nat) (d : Nat) : Nat :=
  match o with
  | none => d
  | some x => if x = 0 then d else x

/-- The response cache, a JS `Map` from identifier to response, as an
association list whose keys stay unique: `messageCache` in main.ts
line 219. -/
abbrev Cache := List (String × SemanticResponse)

/-- JS `Map.prototype.set`: overwrite in place when the key is present
(keeping its insertion position), append otherwise. -/
def mapSet : Cache → String → SemanticResponse → Cache
  | [], k, v => [(k, v)]
  | (k', v') :: rest, k, v =>
      if k' = k then (k, v) :: rest else (k', v') :: mapSet rest k v

/-- JS `Map.prototype.get`: first (and only) binding of the key, or
absent. -/
def mapGet : Cache → String → Option SemanticResponse
  | [], _ => none
  | (k', v') :: rest, k => if k' = k then some v' else mapGet rest k

/-- A sequence of `put` operations applied in order, starting from a
given cache. -/
def applyPuts (m : Cache) (ops : List (String × SemanticResponse)) : Cache :=
  ops.foldl (fun acc p => mapSet acc p.1 p.2) m

/-- The raw JSON body of a successful `POST /api/generate` backend reply
(fields the client reads, main.ts lines 142-148): the generated text and
the two token counts, either of which the backend may omit. -/
structure GenerateData where
  response : String
  prompt_eval_count : Option Nat
  eval_count : Option Nat
deriving DecidableEq

/-- The raw JSON body of a successful `POST /api/chat` backend reply
(fields the client reads, main.ts lines 190-196). -/
structure ChatData where
  message_content : String
  prompt_eval_count : Option Nat
  eval_count : Option Nat
deriving DecidableEq

/-- The body the client POSTs to `/api/generate` (main.ts lines 123-132):
every default is a JS `||`, so falsy present values (0, "") also select
the default. -/
structure GenerateCall where
  model : String
  prompt : Option String
  temperature : ℚ
  top_k : Nat
  top_p : ℚ
  stream : Bool
deriving DecidableEq

/-- `OllamaClient.generate`, request-forwarding half (main.ts lines
123-132): effective parameters sent to the backend.  `dm` is the
client's configured default model. -/
def generateCallOf (dm : String) (req : SemanticRequest) : GenerateCall :=
  { model := strOr req.model dm
    prompt := req.prompt
    temperature := numOr req.temperature (7/10)
    top_k := natOr req.topK 40
    top_p := numOr req.topP (9/10)
    stream := false }

/-- `OllamaClient.generate`, response-building half (main.ts lines
138-152): the `SemanticResponse` returned on backend success.  `pt` is
the measured wall-clock processing time, `now` the completion
timestamp. -/
def mkGenerateResponse (dm : String) (req : SemanticRequest) (data : GenerateData)
    (pt now : Nat) : SemanticResponse :=
  { id := req.id
    prompt := req.prompt
    model := strOr req.model dm
    response := data.response
    tokens :=
      { prompt := natOr data.prompt_eval_count 0
        completion := natOr data.eval_count 0
        total := natOr data.prompt_eval_count 0 + natOr data.eval_count 0 }
    processingTime := pt
    timestamp := now }

/-- `OllamaClient.chat`, response-building half (main.ts lines 186-200). -/
def mkChatResponse (dm : String) (req : SemanticRequest) (data : ChatData)
    (pt now : Nat) : SemanticResponse :=
  { id := req.id
    prompt := req.prompt
    model := strOr req.model dm
    response := data.message_content
    tokens :=
      { prompt := natOr data.prompt_eval_count 0
        completion := natOr data.eval_count 0
        total := natOr data.prompt_eval_count 0 + natOr data.eval_count 0 }
    processingTime := pt
    timestamp := now }

/-- `OllamaClient.generate` as a whole: on backend failure the error is
propagated (re-thrown, main.ts line 159), on success the built response
is returned. -/
def generateResult (dm : String) (req : SemanticRequest)
    (outcome : Except String GenerateData) (pt now : Nat) :
    Except String SemanticResponse :=
  match outcome with
  | .error e => .error e
  | .ok data => .ok (mkGenerateResponse dm req data pt now)

/-- The mutable state of `SemanticBridge` (main.ts lines 216-220):
the response cache, the processing queue, and the federation WebSocket
modelled by its `readyState` (`none` = no connection object, `some n` =
a connection whose `readyState` is `n`; `1` is the ws OPEN state the
code compares against on lines 360 and 372). -/
structure BridgeState where
  messageCache : Cache
  processingQueue : List SemanticRequest
  federationConnection : Option Nat
deriving DecidableEq

/-- Outbound federation messages the bridge emits (main.ts lines
361-366 and 373-380): the `type` tag becomes the constructor. -/
inductive OutboundMsg where
  | semanticResponse (r : SemanticResponse)
  | semanticError (id : String) (error : String) (timestamp : Nat)
deriving DecidableEq

/-- The correlating identifier carried by an outbound message. -/
def msgId : OutboundMsg → String
  | .semanticResponse r => r.id
  | .semanticError id _ _ => id

/-- `SemanticBridge.processRequest` (main.ts lines 345-383): call the
backend once; on success cache the response under the request id and,
when the connection's readyState is 1, send a `semantic_response`; on
failure leave the state untouched and, when the readyState is 1, send a
`semantic_error` with the stringified failure.  `outcome` is the backend
reply oracle, `pt` the measured processing time, `now` the wall clock. -/
def processRequest (dm : String) (st : BridgeState) (request : SemanticRequest)
    (outcome : Except String GenerateData) (pt now : Nat) :
    BridgeState × Option OutboundMsg :=
  match generateResult dm request outcome pt now with
  | .ok response =>
      let st1 : BridgeState :=
        { st with messageCache := mapSet st.messageCache request.id response }
      if st1.federationConnection = some 1 then
        (st1, some (.semanticResponse response))
      else
        (st1, none)
  | .error e =>
      if st.federationConnection = some 1 then
        (st, some (.semanticError request.id e now))
      else
        (st, none)

/-- The fields `handleFederationMessage` reads from a parsed inbound
object (main.ts lines 314-326).  Every field may be absent; a present
`type` or `id` may still be the falsy `""`. -/
structure InboundData where
  type : Option String
  id : Option String
  prompt : Option String
  model : Option String
  temperature : Option ℚ
  topK : Option Nat
  topP : Option ℚ

/-- The result of `JSON.parse` on an inbound federation payload:
either the parse throws, or it yields a structured object. -/
inductive ParseResult where
  | failure
  | success (data : InboundData)

/-- `SemanticBridge.handleFederationMessage` (main.ts lines 310-340):
a parse failure is caught and discarded; a missing `type` is discarded
(a present falsy `type` `""` is likewise discarded, there by failing the
`=== 'semantic_request'` comparison); a `semantic_request` builds the
internal request (id defaulting by JS `||` to the fresh uuid), appends
it to the processing queue and runs `processRequest`; any other `type`
is discarded. -/
def handleFederationMessage (dm : String) (st : BridgeState) (raw : ParseResult)
    (outcome : Except String GenerateData) (fresh : String) (pt now : Nat) :
    BridgeState × Option OutboundMsg :=
  match raw with
  | .failure => (st, none)
  | .success data =>
      match data.type with
      | none => (st, none)
      | some t =>
          if t = "semantic_request" then
            let request : SemanticRequest :=
              { id := strOr data.id fresh
                prompt := data.prompt
                model := data.model
                temperature := data.temperature
                topK := data.topK
                topP := data.topP
                timestamp := now }
            let st1 : BridgeState :=
              { st with processingQueue := st.processingQueue ++ [request] }
            processRequest dm st1 request outcome pt now
          else
            (st, none)

/-- `SemanticBridge.getResponse` (main.ts lines 388-390). -/
def getResponse (st : BridgeState) (id : String) : Option SemanticResponse :=
  mapGet st.messageCache id

/-- The statistics snapshot returned by `getStats`. -/
structure Stats where
  queueLength : Nat
  cacheSize : Nat
  cachedResponses : List String
deriving DecidableEq

/-- `SemanticBridge.getStats` (main.ts lines 395-405): queue length,
cache size, and the cached identifiers in insertion order. -/
def getStats (st : BridgeState) : Stats :=
  { queueLength := st.processingQueue.length
    cacheSize := st.messageCache.length
    cachedResponses := st.messageCache.map Prod.fst }

/-- External events driving the bridge: an inbound federation payload
(with the oracle data its processing consumes: the backend reply, the
fresh uuid, the measured duration and the wall clock), a change of the
connection's readyState (open/close/error of the WebSocket), or a tick
of the periodic stats reporter (read-only, main.ts lines 435-444). -/
inductive Event where
  | inbound (raw : ParseResult) (outcome : Except String GenerateData)
      (fresh : String) (pt : Nat) (now : Nat)
  | connChange (conn : Option Nat)
  | statsTick

/-- One event of bridge execution. -/
def step (dm : String) (st : BridgeState) : Event → BridgeState × Option OutboundMsg
  | .inbound raw outcome fresh pt now =>
      handleFederationMessage dm st raw outcome fresh pt now
  | .connChange c => ({ st with federationConnection := c }, none)
  | .statsTick => (st, none)

/-- A run over a sequence of events, collecting the emitted outbound
messages in order. -/
def runEvents (dm : String) (st : BridgeState) : List Event → BridgeState × List OutboundMsg
  | [] => (st, [])
  | ev :: rest =>
      let s1 := step dm st ev
      let r := runEvents dm s1.1 rest
      (r.1, s1.2.toList ++ r.2)

/-- The identifier of the request an event gives rise to, when it is a
well-formed `semantic_request`: the inbound `id` defaulted by JS `||`
to the fresh uuid.  Other events give rise to no request. -/
def eventRequestId : Event → Option String
  | .inbound (.success data) _ fresh _ _ =>
      (match data.type with
       | none => none
       | some t => if t = "semantic_request" then some (strOr data.id fresh) else none)
  | _ => none

/-- The fixed reconnect delay (main.ts line 299): 5000 ms. -/
def reconnectDelay : Nat := 5000

/-- The observable state of the relay reconnect loop
(`connectToFederation`, main.ts lines 263-305): how many connect
attempts have run, at which times they started, and the absolute fire
time of the pending `setTimeout`, if one is scheduled. -/
structure RelayLoop where
  attempts : Nat
  attemptTimes : List Nat
  pendingReconnect : Option Nat
deriving DecidableEq

/-- Entering `connectToFederation` at time `now`: one more attempt
starts; no reconnect is pending until a failure schedules one. -/
def connectAttempt (s : RelayLoop) (now : Nat) : RelayLoop :=
  { attempts := s.attempts + 1
    attemptTimes := s.attemptTimes ++ [now]
    pendingReconnect := none }

/-- The `close` handler (main.ts lines 293-300) at time `now`:
`setTimeout(() => this.connectToFederation(), 5000)` schedules exactly
one reconnect at `now + 5000`; nothing else changes. -/
def onClose (s : RelayLoop) (now : Nat) : RelayLoop :=
  { s with pendingReconnect := some (now + reconnectDelay) }

/-- The scheduled timer firing: runs `connectToFederation` at the
scheduled time; a fire with nothing pending does nothing. -/
def fireTimer (s : RelayLoop) : RelayLoop :=
  match s.pendingReconnect with
  | some t => connectAttempt s t
  | none => s

/-- `n` consecutive connection failures starting from a failure at time
`now`: each failure emits `close`, which schedules one reconnect after
the fixed delay; when that timer fires the new attempt starts and (being
the next consecutive failure) fails at its start time. -/
def failN (s : RelayLoop) (now : Nat) : Nat → RelayLoop
  | 0 => s
  | n + 1 => failN (fireTimer (onClose s now)) (now + reconnectDelay) n

/-! ### Cache lemmas -/

theorem mapGet_mapSet_self (m : Cache) (k : String) (v : SemanticResponse) :
    mapGet (mapSet m k v) k = some v := by
  induction m with
  | nil => simp [mapSet, mapGet]
  | cons hd tl ih =>
      obtain ⟨k', v'⟩ := hd
      by_cases h : k' = k
      · simp [mapSet, mapGet, h]
      · simp [mapSet, mapGet, h, ih]

theorem mapGet_mapSet_ne (m : Cache) (k k' : String) (v : SemanticResponse)
    (h : k' ≠ k) : mapGet (mapSet m k' v) k = mapGet m k := by
  induction m with
  | nil => simp [mapSet, mapGet, h]
  | cons hd tl ih =>
      obtain ⟨k0, v0⟩ := hd
      by_cases h0 : k0 = k'
      · simp [mapSet, mapGet, h0, h]
      · by_cases h1 : k0 = k
        · simp [mapSet, mapGet, h0, h1, Ne.symm h]
        · simp [mapSet, mapGet, h0, h1, ih]

theorem mapGet_applyPuts_not_mem (ops : List (String × SemanticResponse)) :
    ∀ (m : Cache) (id : String), id ∉ ops.map Prod.fst →
      mapGet m id = none → mapGet (applyPuts m ops) id = none := by
  induction ops with
  | nil => intro m id _ hm; simpa [applyPuts] using hm
  | cons hd tl ih =>
      intro m id hnot hm
      simp only [List.map_cons, List.mem_cons] at hnot
      push_neg at hnot
      have step' : mapGet (mapSet m hd.1 hd.2) id = none := by
        rw [mapGet_mapSet_ne m id hd.1 hd.2 (Ne.symm hnot.1)]
        exact hm
      have : applyPuts m (hd :: tl) = applyPuts (mapSet m hd.1 hd.2) tl := by
        simp [applyPuts]
      rw [this]
      exact ih (mapSet m hd.1 hd.2) id hnot.2 step'

/-! ### Step and run lemmas -/

theorem step_msg_id (dm : String) (st : BridgeState) (ev : Event) (m : OutboundMsg)
    (h : (step dm st ev).2 = some m) : eventRequestId ev = some (msgId m) := by
  cases ev with
  | inbound raw outcome fresh pt now =>
      cases raw with
      | failure => simp [step, handleFederationMessage] at h
      | success data =>
          cases htype : data.type with
          | none => simp [step, handleFederationMessage, htype] at h
          | some t =>
              by_cases ht : t = "semantic_request"
              · subst ht
                by_cases hc : st.federationConnection = some 1
                · cases outcome with
                  | error e =>
                      simp [step, handleFederationMessage, htype, processRequest,
                        generateResult, hc] at h
                      simp [eventRequestId, htype, msgId, ← h]
                  | ok gdata =>
                      simp [step, handleFederationMessage, htype, processRequest,
                        generateResult, hc] at h
                      simp [eventRequestId, htype, msgId, mkGenerateResponse, ← h]
                · cases outcome with
                  | error e =>
                      simp [step, handleFederationMessage, htype, processRequest,
                        generateResult, hc] at h
                  | ok gdata =>
                      simp [step, handleFederationMessage, htype, processRequest,
                        generateResult, hc] at h
              · simp [step, handleFederationMessage, htype, ht] at h
  | connChange c => simp [step] at h
  | statsTick => simp [step] at h

theorem step_cache_other (dm : String) (st : BridgeState) (ev : Event) (id : String)
    (h : eventRequestId ev ≠ some id) :
    mapGet (step dm st ev).1.messageCache id = mapGet st.messageCache id := by
  cases ev with
  | inbound raw outcome fresh pt now =>
      cases raw with
      | failure => simp [step, handleFederationMessage]
      | success data =>
          cases htype : data.type with
          | none => simp [step, handleFederationMessage, htype]
          | some t =>
              by_cases ht : t = "semantic_request"
              · subst ht
                have hne : strOr data.id fresh ≠ id := by
                  intro hk
                  exact h (by simp [eventRequestId, htype, hk])
                by_cases hc : st.federationConnection = some 1
                · cases outcome with
                  | error e =>
                      simp [step, handleFederationMessage, htype, processRequest,
                        generateResult, hc]
                  | ok gdata =>
                      simp [step, handleFederationMessage, htype, processRequest,
                        generateResult, hc, mapGet_mapSet_ne _ _ _ _ hne]
                · cases outcome with
                  | error e =>
                      simp [step, handleFederationMessage, htype, processRequest,
                        generateResult, hc]
                  | ok gdata =>
                      simp [step, handleFederationMessage, htype, processRequest,
                        generateResult, hc, mapGet_mapSet_ne _ _ _ _ hne]
              · simp [step, handleFederationMessage, htype, ht]
  | connChange c => simp [step]
  | statsTick => simp [step]

theorem step_queue_extends (dm : String) (st : BridgeState) (ev : Event) :
    ∃ tail, (step dm st ev).1.processingQueue = st.processingQueue ++ tail := by
  cases ev with
  | inbound raw outcome fresh pt now =>
      cases raw with
      | failure => exact ⟨[], by simp [step, handleFederationMessage]⟩
      | success data =>
          cases htype : data.type with
          | none => exact ⟨[], by simp [step, handleFederationMessage, htype]⟩
          | some t =>
              by_cases ht : t = "semantic_request"
              · subst ht
                refine ⟨[⟨strOr data.id fresh, data.prompt, data.model,
                  data.temperature, data.topK, data.topP, now⟩], ?_⟩
                by_cases hc : st.federationConnection = some 1 <;>
                  cases outcome <;>
                    simp [step, handleFederationMessage, htype, processRequest,
                      generateResult, hc]
              · exact ⟨[], by simp [step, handleFederationMessage, htype, ht]⟩
  | connChange c => exact ⟨[], by simp [step]⟩
  | statsTick => exact ⟨[], by simp [step]⟩

theorem runEvents_msgs_from_events (dm : String) (es : List Event) :
    ∀ (st : BridgeState) (m : OutboundMsg), m ∈ (runEvents dm st es).2 →
      ∃ ev ∈ es, eventRequestId ev = some (msgId m) := by
  induction es with
  | nil => intro st m hm; simp [runEvents] at hm
  | cons ev rest ih =>
      intro st m hm
      simp only [runEvents, List.mem_append] at hm
      rcases hm with hm | hm
      · refine ⟨ev, by simp, ?_⟩
        rcases hs : (step dm st ev).2 with _ | m'
        · rw [hs] at hm; simp at hm
        · rw [hs] at hm
          simp only [Option.toList_some, List.mem_singleton] at hm
          subst hm
          exact step_msg_id dm st ev m hs
      · obtain ⟨ev', hev', hid⟩ := ih (step dm st ev).1 m hm
        exact ⟨ev', by simp [hev'], hid⟩

theorem runEvents_cache_other (dm : String) (es : List Event) :
    ∀ (st : BridgeState) (id : String),
      (∀ ev ∈ es, eventRequestId ev ≠ some id) →
      mapGet (runEvents dm st es).1.messageCache id = mapGet st.messageCache id := by
  induction es with
  | nil => intro st id _; simp [runEvents]
  | cons ev rest ih =>
      intro st id hno
      simp only [runEvents]
      rw [ih (step dm st ev).1 id (fun e he => hno e (by simp [he]))]
      exact step_cache_other dm st ev id (hno ev (by simp))

theorem runEvents_queue_extends (dm : String) (es : List Event) :
    ∀ (st : BridgeState),
      ∃ tail, (runEvents dm st es).1.processingQueue = st.processingQueue ++ tail := by
  induction es with
  | nil => intro st; exact ⟨[], by simp [runEvents]⟩
  | cons ev rest ih =>
      intro st
      obtain ⟨t1, h1⟩ := step_queue_extends dm st ev
      obtain ⟨t2, h2⟩ := ih (step dm st ev).1
      refine ⟨t1 ++ t2, ?_⟩
      simp only [runEvents]
      rw [h2, h1, List.append_assoc]

/-! ### Sample data for concrete instantiations -/

/-- A concrete response used to instantiate universally quantified
statements. -/
def sampleResponseA : SemanticResponse :=
  { id := "a", prompt := some "2+2?", model := "mistral", response := "4"
    tokens := { prompt := 3, completion := 1, total := 4 }
    processingTime := 5, timestamp := 100 }

/-- A second concrete response, distinct from `sampleResponseA`. -/
def sampleResponseB : SemanticResponse :=
  { id := "a", prompt := some "2+2?", model := "mistral", response := "four"
    tokens := { prompt := 3, completion := 2, total := 5 }
    processingTime := 6, timestamp := 101 }

/-- A concrete request used to instantiate universally quantified
statements. -/
def sampleRequest : SemanticRequest :=
  { id := "msg-2", prompt := some "2+2?", model := none, temperature := none
    topK := none, topP := none, timestamp := 50 }

/-- A concrete successful backend reply. -/
def sampleGenerateData : GenerateData :=
  { response := "4", prompt_eval_count := some 3, eval_count := some 1 }

/-! ### Claim theorems -/

/-- C1: for the response cache, after `put(id, r)`, `get(id)` returns
exactly `r`; after a second `put(id, r2)` with the same id, `get(id)`
returns `r2` (last-write-wins); and `get` of an identifier never
inserted returns absent, for every identifier and every pair of
responses. -/
theorem cache_put_get_laws (m : Cache) (id : String) (r r2 : SemanticResponse)
    (puts : List (String × SemanticResponse)) (h : id ∉ puts.map Prod.fst) :
    mapGet (mapSet m id r) id = some r ∧
    mapGet (mapSet (mapSet m id r) id r2) id = some r2 ∧
    mapGet (applyPuts [] puts) id = none :=
  ⟨mapGet_mapSet_self m id r, mapGet_mapSet_self _ id r2,
    mapGet_applyPuts_not_mem puts [] id h rfl⟩

theorem cache_put_get_laws_witness :
    "a" ∉ ([("b", sampleResponseB)].map Prod.fst) ∧
    (mapGet (mapSet [] "a" sampleResponseA) "a" = some sampleResponseA ∧
     mapGet (mapSet (mapSet [] "a" sampleResponseA) "a" sampleResponseB) "a"
        = some sampleResponseB ∧
     mapGet (applyPuts [] [("b", sampleResponseB)]) "a" = none) :=
  ⟨by decide,
    cache_put_get_laws [] "a" sampleResponseA sampleResponseB
      [("b", sampleResponseB)] (by decide)⟩

/-- C2: every response built by `generate` and by `chat` satisfies
`tokens.total = tokens.prompt + tokens.completion`, for all backend
token counts, a missing backend count field being treated as 0. -/
theorem tokens_total_eq (dm : String) (req : SemanticRequest) (g : GenerateData)
    (c : ChatData) (pt now : Nat) :
    (mkGenerateResponse dm req g pt now).tokens.total =
      (mkGenerateResponse dm req g pt now).tokens.prompt +
        (mkGenerateResponse dm req g pt now).tokens.completion ∧
    (mkChatResponse dm req c pt now).tokens.total =
      (mkChatResponse dm req c pt now).tokens.prompt +
        (mkChatResponse dm req c pt now).tokens.completion :=
  ⟨rfl, rfl⟩

/-- C3, counterexample: an inbound `semantic_request` whose `id` field
is present but equal to the empty string does not get its id echoed:
`data.id || uuidv4()` (main.ts line 321) treats the falsy `""` as
absent, so the outbound `semantic_response` carries the freshly
generated identifier instead. -/
theorem response_id_present_empty_cex :
    ((handleFederationMessage "mistral" ⟨[], [], some 1⟩
        (ParseResult.success
          ⟨some "semantic_request", some "", some "2+2?", none, none, none, none⟩)
        (Except.ok ⟨"4", some 3, some 1⟩) "generated-uuid" 5 100).2.map msgId)
      = some "generated-uuid" ∧ "generated-uuid" ≠ "" := by
  constructor
  · rfl
  · decide

/-- C3, amended: for every valid inbound `semantic_request` whose `id`
is present and non-empty, the outbound `semantic_response` produced on
backend success (with the relay connected) carries exactly the inbound
id; a present empty id is replaced by a fresh identifier. -/
theorem response_id_matches (dm : String) (st : BridgeState) (d : InboundData)
    (g : GenerateData) (fresh : String) (pt now : Nat) (s : String)
    (ht : d.type = some "semantic_request") (hid : d.id = some s) (hs : s ≠ "")
    (hconn : st.federationConnection = some 1) :
    ∃ r, (handleFederationMessage dm st (ParseResult.success d) (Except.ok g)
        fresh pt now).2 = some (OutboundMsg.semanticResponse r) ∧ r.id = s := by
  refine ⟨mkGenerateResponse dm
    { id := s, prompt := d.prompt, model := d.model, temperature := d.temperature,
      topK := d.topK, topP := d.topP, timestamp := now } g pt now, ?_, rfl⟩
  have hkey : strOr d.id fresh = s := by simp [strOr, hid, hs]
  simp [handleFederationMessage, ht, processRequest, generateResult, hkey, hconn]

theorem response_id_matches_witness :
    ∃ r, (handleFederationMessage "mistral" ⟨[], [], some 1⟩
        (ParseResult.success
          (⟨some "semantic_request", some "msg-1", some "2+2?", none, none, none,
            none⟩ : InboundData))
        (Except.ok (⟨"4", some 3, some 1⟩ : GenerateData)) "u" 5 100).2
      = some (OutboundMsg.semanticResponse r) ∧ r.id = "msg-1" :=
  response_id_matches "mistral" ⟨[], [], some 1⟩
    ⟨some "semantic_request", some "msg-1", some "2+2?", none, none, none, none⟩
    ⟨"4", some 3, some 1⟩ "u" 5 100 "msg-1" rfl rfl (by decide) rfl

/-- C4, counterexample: a request with the present temperature 0, a
value inside [0, 1], is not forwarded verbatim: `request.temperature ||
0.7` (main.ts line 128) treats the falsy 0 as absent and substitutes
the default 0.7. -/
theorem temperature_zero_cex :
    (0:ℚ) ≤ 0 ∧ (0:ℚ) ≤ 1 ∧
    (generateCallOf "mistral"
      ⟨"t0", some "p", none, some 0, none, none, 0⟩).temperature = 7/10 ∧
    (7/10 : ℚ) ≠ 0 := by
  refine ⟨le_refl 0, by norm_num, ?_, by norm_num⟩
  simp [generateCallOf, numOr]

/-- C4, amended: for every request with a present non-zero temperature
value — in particular any value in (0, 1], and also any out-of-range
non-zero value, with no clamping and no rejection — `generate` forwards
exactly that value to the backend; a present temperature of exactly 0 is
replaced by the default 0.7. -/
theorem temperature_forward_nonzero (dm : String) (req : SemanticRequest) (t : ℚ)
    (hp : req.temperature = some t) (ht : t ≠ 0) :
    (generateCallOf dm req).temperature = t := by
  simp [generateCallOf, numOr, hp, ht]

theorem temperature_forward_nonzero_witness :
    (generateCallOf "mistral"
      ⟨"t1", some "p", none, some (1/2), none, none, 0⟩).temperature = 1/2 :=
  temperature_forward_nonzero "mistral"
    ⟨"t1", some "p", none, some (1/2), none, none, 0⟩ (1/2) rfl (by norm_num)

/-- C5: when the backend call for a request fails (relay connected), the
bridge sends a `semantic_error` message carrying that request's id, the
stringified failure and a timestamp; the bridge state — in particular
the cache entry for that id — is unchanged; and across any subsequent
events that do not resubmit the identifier, the entry stays absent and
no message with that id is ever emitted (no retry). -/
theorem backend_failure_terminal (dm : String) (st : BridgeState)
    (req : SemanticRequest) (e : String) (pt now : Nat) (es : List Event)
    (hconn : st.federationConnection = some 1)
    (habs : mapGet st.messageCache req.id = none)
    (hno : ∀ ev ∈ es, eventRequestId ev ≠ some req.id) :
    processRequest dm st req (Except.error e) pt now
        = (st, some (OutboundMsg.semanticError req.id e now)) ∧
    mapGet (runEvents dm st es).1.messageCache req.id = none ∧
    ∀ m ∈ (runEvents dm st es).2, msgId m ≠ req.id := by
  refine ⟨?_, ?_, ?_⟩
  · simp [processRequest, generateResult, hconn]
  · rw [runEvents_cache_other dm es st req.id hno]
    exact habs
  · intro m hm hmid
    obtain ⟨ev, hev, hid⟩ := runEvents_msgs_from_events dm es st m hm
    exact hno ev hev (hmid ▸ hid)

theorem backend_failure_terminal_witness :
    processRequest "mistral" ⟨[], [], some 1⟩ sampleRequest
        (Except.error "timeout of 60000ms exceeded") 5 100
      = (⟨[], [], some 1⟩,
          some (OutboundMsg.semanticError "msg-2"
            "timeout of 60000ms exceeded" 100)) ∧
    mapGet (runEvents "mistral" ⟨[], [], some 1⟩ [Event.statsTick]).1.messageCache
        "msg-2" = none ∧
    ∀ m ∈ (runEvents "mistral" ⟨[], [], some 1⟩ [Event.statsTick]).2,
      msgId m ≠ "msg-2" :=
  backend_failure_terminal "mistral" ⟨[], [], some 1⟩ sampleRequest
    "timeout of 60000ms exceeded" 5 100 [Event.statsTick] rfl rfl
    (by intro ev hev; simp at hev; subst hev; simp [eventRequestId])

/-- C6: an inbound payload that is unparsable, or parses to an object
lacking a `type` field, is discarded without raising: the handler
returns the state unchanged, produces no outbound message, and the
reported queue length and cache size are unchanged. -/
theorem malformed_discarded (dm : String) (st : BridgeState)
    (outcome : Except String GenerateData) (fresh : String) (pt now : Nat)
    (raw : ParseResult)
    (h : raw = ParseResult.failure ∨
      ∃ d, raw = ParseResult.success d ∧ d.type = none) :
    handleFederationMessage dm st raw outcome fresh pt now = (st, none) ∧
    (getStats (handleFederationMessage dm st raw outcome fresh pt now).1).queueLength
        = (getStats st).queueLength ∧
    (getStats (handleFederationMessage dm st raw outcome fresh pt now).1).cacheSize
        = (getStats st).cacheSize := by
  have h1 : handleFederationMessage dm st raw outcome fresh pt now = (st, none) := by
    rcases h with h | ⟨d, hd, htype⟩
    · subst h; rfl
    · subst hd; simp [handleFederationMessage, htype]
  exact ⟨h1, by rw [h1], by rw [h1]⟩

theorem malformed_discarded_witness :
    handleFederationMessage "mistral" ⟨[("a", sampleResponseA)], [sampleRequest], some 1⟩
        ParseResult.failure (Except.ok sampleGenerateData) "u" 5 100
      = (⟨[("a", sampleResponseA)], [sampleRequest], some 1⟩, none) ∧
    (getStats (handleFederationMessage "mistral"
        ⟨[("a", sampleResponseA)], [sampleRequest], some 1⟩
        ParseResult.failure (Except.ok sampleGenerateData) "u" 5 100).1).queueLength
      = (getStats ⟨[("a", sampleResponseA)], [sampleRequest], some 1⟩).queueLength ∧
    (getStats (handleFederationMessage "mistral"
        ⟨[("a", sampleResponseA)], [sampleRequest], some 1⟩
        ParseResult.failure (Except.ok sampleGenerateData) "u" 5 100).1).cacheSize
      = (getStats ⟨[("a", sampleResponseA)], [sampleRequest], some 1⟩).cacheSize :=
  malformed_discarded "mistral" ⟨[("a", sampleResponseA)], [sampleRequest], some 1⟩
    (Except.ok sampleGenerateData) "u" 5 100 ParseResult.failure (Or.inl rfl)

/-- C7: an outbound message is sent only when the connection's
readyState is the Connected value 1; in any other state the send is a
silent no-op — `processRequest` emits nothing, and (the state holding no
outbound buffer) across any subsequent events that do not resubmit the
identifier, no message with that request's id is ever emitted. -/
theorem send_requires_connected (dm : String) (st : BridgeState)
    (req : SemanticRequest) (outcome : Except String GenerateData)
    (pt now : Nat) (es : List Event)
    (h : st.federationConnection ≠ some 1)
    (hno : ∀ ev ∈ es, eventRequestId ev ≠ some req.id) :
    (∀ (st2 : BridgeState) (req2 : SemanticRequest)
        (o2 : Except String GenerateData) (p2 n2 : Nat) (m : OutboundMsg),
        (processRequest dm st2 req2 o2 p2 n2).2 = some m →
          st2.federationConnection = some 1) ∧
    (processRequest dm st req outcome pt now).2 = none ∧
    ∀ m ∈ (runEvents dm (processRequest dm st req outcome pt now).1 es).2,
      msgId m ≠ req.id := by
  refine ⟨?_, ?_, ?_⟩
  · intro st2 req2 o2 p2 n2 m hm
    by_cases hc : st2.federationConnection = some 1
    · exact hc
    · cases o2 <;> simp [processRequest, generateResult, hc] at hm
  · cases outcome <;> simp [processRequest, generateResult, h]
  · intro m hm hmid
    obtain ⟨ev, hev, hid⟩ :=
      runEvents_msgs_from_events dm es (processRequest dm st req outcome pt now).1 m hm
    exact hno ev hev (hmid ▸ hid)

theorem send_requires_connected_witness :
    (∀ (st2 : BridgeState) (req2 : SemanticRequest)
        (o2 : Except String GenerateData) (p2 n2 : Nat) (m : OutboundMsg),
        (processRequest "mistral" st2 req2 o2 p2 n2).2 = some m →
          st2.federationConnection = some 1) ∧
    (processRequest "mistral" ⟨[], [], none⟩ sampleRequest
        (Except.ok sampleGenerateData) 5 100).2 = none ∧
    ∀ m ∈ (runEvents "mistral"
        (processRequest "mistral" ⟨[], [], none⟩ sampleRequest
          (Except.ok sampleGenerateData) 5 100).1 [Event.statsTick]).2,
      msgId m ≠ "msg-2" :=
  send_requires_connected "mistral" ⟨[], [], none⟩ sampleRequest
    (Except.ok sampleGenerateData) 5 100 [Event.statsTick] (by decide)
    (by intro ev hev; simp at hev; subst hev; simp [eventRequestId])

/-- C8: across every sequence of events, entries appended to the
processing queue are never removed — the final queue extends the initial
one — so the `queueLength` reported by `getStats` is monotonically
non-decreasing. -/
theorem queue_monotone (dm : String) (st : BridgeState) (es : List Event) :
    (∃ tail, (runEvents dm st es).1.processingQueue
        = st.processingQueue ++ tail) ∧
    (getStats st).queueLength ≤ (getStats (runEvents dm st es).1).queueLength := by
  obtain ⟨tail, htail⟩ := runEvents_queue_extends dm es st
  refine ⟨⟨tail, htail⟩, ?_⟩
  simp [getStats, htail]

/-- C10: whenever the backend call succeeds, the response is cached
under the request id regardless of the relay connection state — even
when the connection is not in readyState 1 and no `semantic_response` is
emitted, `getResponse` afterwards returns exactly the built response. -/
theorem cache_on_success_regardless (dm : String) (st : BridgeState)
    (req : SemanticRequest) (g : GenerateData) (pt now : Nat) :
    getResponse (processRequest dm st req (Except.ok g) pt now).1 req.id
        = some (mkGenerateResponse dm req g pt now) ∧
    (st.federationConnection ≠ some 1 →
      (processRequest dm st req (Except.ok g) pt now).2 = none) := by
  constructor
  · by_cases hc : st.federationConnection = some 1 <;>
      simp [processRequest, generateResult, getResponse, hc, mapGet_mapSet_self]
  · intro h
    simp [processRequest, generateResult, h]

theorem cache_on_success_regardless_witness :
    getResponse (processRequest "mistral" ⟨[], [], none⟩ sampleRequest
        (Except.ok sampleGenerateData) 5 100).1 "msg-2"
      = some (mkGenerateResponse "mistral" sampleRequest sampleGenerateData 5 100) ∧
    (processRequest "mistral" ⟨[], [], none⟩ sampleRequest
        (Except.ok sampleGenerateData) 5 100).2 = none :=
  ⟨(cache_on_success_regardless "mistral" ⟨[], [], none⟩ sampleRequest
      sampleGenerateData 5 100).1,
   (cache_on_success_regardless "mistral" ⟨[], [], none⟩ sampleRequest
      sampleGenerateData 5 100).2 (by decide)⟩

/-- C9: for every `n`, given `n` consecutive connection failures
(starting from a failure at time `t0`), exactly `n` reconnect attempts
occur, the `i`-th at `t0 + 5000 * (i + 1)` — each separated from the
previous failure by the fixed 5000 ms delay, with no backoff growth and
no cap on `n`: every failure schedules exactly one more attempt. -/
theorem reconnect_exactly_n (s : RelayLoop) (t0 : Nat) (n : Nat) :
    (failN s t0 n).attempts = s.attempts + n ∧
    (failN s t0 n).attemptTimes
      = s.attemptTimes
          ++ (List.range n).map (fun i => t0 + reconnectDelay * (i + 1)) := by
  induction n generalizing s t0 with
  | zero => simp [failN]
  | succ n ih =>
      have hstep : failN s t0 (n + 1)
          = failN ⟨s.attempts + 1, s.attemptTimes ++ [t0 + reconnectDelay], none⟩
              (t0 + reconnectDelay) n := rfl
      obtain ⟨ha, ht⟩ :=
        ih ⟨s.attempts + 1, s.attemptTimes ++ [t0 + reconnectDelay], none⟩
          (t0 + reconnectDelay)
      constructor
      · rw [hstep, ha]
        dsimp only
        omega
      · rw [hstep, ht]
        dsimp only
        have hXY : (t0 + reconnectDelay)
              :: (List.range n).map
                  (fun i => t0 + reconnectDelay + reconnectDelay * (i + 1))
            = (List.range (n + 1)).map (fun i => t0 + reconnectDelay * (i + 1)) := by
          rw [List.range_succ_eq_map, List.map_cons, List.map_map]
          simp only [List.cons.injEq]
          refine ⟨by ring, ?_⟩
          exact List.map_congr_left
            (fun i _ => by
              simp only [Function.comp_apply, Nat.succ_eq_add_one]; ring)
        rw [List.append_assoc, List.singleton_append, hXY]

end GipBridge
